import Mathlib

/-!
Verification development for the abnormal-return / event-study engine
(`src/analysis/utils.py`, `src/analysis/stats.py`, `src/analysis/EventStudy.py`).

A return series is modelled as an association list of (date, value) pairs,
dates as naturals and values as exact rationals (the Python floats carry no
NaN in a residual series produced from real inputs; `pandas.Series.sum`
skips NaN in any case, so slice sums are never NaN and `dropna` on the
collected CAR lists never removes an element).

Columns of a result table whose Python value is irrational (Std, t_stat,
p_value) are represented by an exact rational determinant of the Python
float, with `none` exactly where the Python cell holds a missing value
(NaN or a never-assigned cell of the pre-allocated frame):
  * `Std` stores the sample variance; the source column is its square root,
    and the two are defined (and determine each other) together;
  * `t_stat` stores the pair (numerator, squared denominator) of the
    t statistic, i.e. t = d / √v for payload (d, v);
  * `p_value` stores that pair together with the degrees of freedom; the
    two-sided Student-t p-value of the source is a function of these.
-/

/-- Calendar dates, abstracted to naturals. -/
abbrev Date : Type := Nat

/-- A pandas Series with a date index: ordered (date, value) pairs. -/
abbrev Series : Type := List (Date × ℚ)

/-- The date axis (`series.index`). -/
def seriesIndex (s : Series) : List Date := s.map Prod.fst

/-- Position of the first occurrence of a date in an axis. -/
def indexOfDate : List Date → Date → Option ℕ
  | [], _ => none
  | x :: xs, d => if x = d then some 0 else (indexOfDate xs d).map (fun k => k + 1)

/-- `returns.index.get_loc(date)`: integer position of `date` in the axis,
`none` when absent (pandas raises `KeyError` there; call sites decide). -/
def get_loc (returns : Series) (date : Date) : Option ℕ :=
  indexOfDate (seriesIndex returns) date

/-- `compute_car` (utils.py 4–21):
`stock_returns.iloc[event_index : event_index + window + 1].sum()`.
The `iloc` slice truncates at the end of the series, so the sum ranges over
`min (window+1) (length − event_index)` elements. -/
def compute_car (stock_returns : Series) (event_index : ℕ) (window : ℕ) : ℚ :=
  (((stock_returns.drop event_index).take (window + 1)).map Prod.snd).sum

/-- Errors surfaced by the Python code paths modelled here. -/
inductive PyErr where
  | typeError
  | keyError
  | attributeError
deriving Repr, DecidableEq

/-- One row of a result table (columns Mean, Std, N, t_stat, p_value);
see the file comment for the encoding of the irrational columns. -/
structure TestRow where
  Mean : Option ℚ
  Std : Option ℚ
  N : Option ℕ
  t_stat : Option (ℚ × ℚ)
  p_value : Option ((ℚ × ℚ) × ℕ)
deriving Repr, DecidableEq

/-- A row of the pre-allocated frame that is never assigned: all five
cells hold the missing-value marker. -/
def missing_row : TestRow := ⟨none, none, none, none, none⟩

/-- `pandas.Series.mean` of a non-empty list. -/
def sample_mean (xs : List ℚ) : ℚ := xs.sum / xs.length

/-- `pandas.Series.std` determinant: the sample variance (ddof = 1);
`none` (NaN) when fewer than two observations. -/
def sample_var (xs : List ℚ) : Option ℚ :=
  if xs.length ≤ 1 then none
  else some ((xs.map (fun x => (x - sample_mean xs) ^ 2)).sum / ((xs.length : ℚ) - 1))

/-- Determinant of the `scipy.stats.ttest_1samp` t statistic on `cars`
against `test_mean`: payload (d, v) with t = d / √v, v = var / n;
`none` exactly when the float t is NaN (variance undefined, or the 0/0
case of zero variance and zero numerator; a nonzero numerator over a zero
variance yields ±inf, which is not a missing value). -/
def t_det1 (cars : List ℚ) (test_mean : ℚ) : Option (ℚ × ℚ) :=
  match sample_var cars with
  | none => none
  | some v =>
    if v = 0 ∧ sample_mean cars - test_mean = 0 then none
    else some (sample_mean cars - test_mean, v / (cars.length : ℚ))

/-- Determinant of the two-sided `ttest_1samp` p-value: the t determinant
plus the degrees of freedom n − 1; missing exactly when t is. -/
def p_det1 (cars : List ℚ) (test_mean : ℚ) : Option ((ℚ × ℚ) × ℕ) :=
  (t_det1 cars test_mean).map (fun td => (td, cars.length - 1))

/-- Determinant of the `scipy.stats.ttest_ind` (equal-variance) t statistic
comparing samples `a` and `b`: payload (d, v) with t = d / √v,
d = mean a − mean b, v = pooled variance × (1/n₁ + 1/n₂). NaN (hence
`none`) as soon as either sample has fewer than two observations (the
pooled variance then contains 0 · NaN or an empty mean), or in the 0/0
case. -/
def t_det2 (a b : List ℚ) : Option (ℚ × ℚ) :=
  match sample_var a, sample_var b with
  | some va, some vb =>
    if (sample_mean a - sample_mean b = 0) ∧
        ((((a.length : ℚ) - 1) * va + ((b.length : ℚ) - 1) * vb) /
          ((a.length : ℚ) + (b.length : ℚ) - 2)
          * (1 / (a.length : ℚ) + 1 / (b.length : ℚ)) = 0) then none
    else some (sample_mean a - sample_mean b,
      (((a.length : ℚ) - 1) * va + ((b.length : ℚ) - 1) * vb) /
        ((a.length : ℚ) + (b.length : ℚ) - 2)
        * (1 / (a.length : ℚ) + 1 / (b.length : ℚ)))
  | _, _ => none

/-- Determinant of the two-sided `ttest_ind` p-value: t determinant plus
degrees of freedom n₁ + n₂ − 2. -/
def p_det2 (a b : List ℚ) : Option ((ℚ × ℚ) × ℕ) :=
  (t_det2 a b).map (fun td => (td, a.length + b.length - 2))

/-- The CAR-sample list collected by the loops of `single_sample_test`
(stats.py 65–73) and the event loop of `two_sample_test` (124–131):
dates absent from the axis are skipped (`if date in returns.index`);
present dates contribute `compute_car` at their position. The subsequent
`pd.Series(cars).dropna()` removes nothing, since a pandas slice sum is
never NaN. -/
def car_samples (returns : Series) (event_indices : List Date) (window : ℕ) : List ℚ :=
  event_indices.filterMap (fun date =>
    (get_loc returns date).map (fun idx => compute_car returns idx window))

/-- The row written for one window by `single_sample_test` (stats.py 75–84):
`continue` on an empty sample list leaves the pre-allocated missing row;
otherwise the five statistics of the one-sample t-test. -/
def single_row (cars : List ℚ) (test_mean : ℚ) : TestRow :=
  if cars = [] then missing_row
  else ⟨some (sample_mean cars), sample_var cars, some cars.length,
    t_det1 cars test_mean, p_det1 cars test_mean⟩

/-- `single_sample_test` (stats.py 33–86) on a real (non-None) series:
a frame indexed by the caller-supplied window list. -/
def single_sample_test (returns : Series) (event_indices : List Date)
    (windows : List ℕ) (test_mean : ℚ) : List (ℕ × TestRow) :=
  windows.map (fun w => (w, single_row (car_samples returns event_indices w) test_mean))

/-- The same per-date CAR loop when the `returns` argument may be Python
`None` (the Unfitted orchestrator passes `self.residuals = None`): the
first loop iteration evaluates `date in returns.index` and raises
`AttributeError`; with no dates the loop body never runs and the list
stays empty. -/
def car_samples_opt (returns : Option Series) (event_indices : List Date)
    (window : ℕ) : Except PyErr (List ℚ) :=
  match returns with
  | some r => .ok (car_samples r event_indices window)
  | none => if event_indices = [] then .ok [] else .error .attributeError

/-- `single_sample_test` including the possibly-None `returns` argument:
the window loop, assembling one row per window in caller order. -/
def single_sample_rows (returns : Option Series) (event_indices : List Date)
    (test_mean : ℚ) : List ℕ → Except PyErr (List (ℕ × TestRow))
  | [] => .ok []
  | w :: ws =>
    match car_samples_opt returns event_indices w with
    | .error e => .error e
    | .ok cars =>
      match single_sample_rows returns event_indices test_mean ws with
      | .error e => .error e
      | .ok rest => .ok ((w, single_row cars test_mean) :: rest)

/-- The comparison-date CAR loop of `two_sample_test` (stats.py 134–138):
`returns.index.get_loc(date)` is unguarded, so an absent comparison date
raises `KeyError`. -/
def compare_car_samples (returns : Series) (window : ℕ) :
    List Date → Except PyErr (List ℚ)
  | [] => .ok []
  | d :: ds =>
    match get_loc returns d with
    | none => .error .keyError
    | some idx =>
      match compare_car_samples returns window ds with
      | .error e => .error e
      | .ok rest => .ok (compute_car returns idx window :: rest)

/-- The row written for one window by `two_sample_test` (stats.py 140–151):
`continue` on an empty comparison sample leaves the missing row; otherwise
Mean/Std/N report the comparison sample and t/p the two-sample t-test of
the event sample against it. -/
def two_row (event_cars compare_cars : List ℚ) : TestRow :=
  if compare_cars = [] then missing_row
  else ⟨some (sample_mean compare_cars), sample_var compare_cars,
    some compare_cars.length, t_det2 event_cars compare_cars,
    p_det2 event_cars compare_cars⟩

/-- `two_sample_test` (stats.py 89–153) on a real series: the event CARs
per window (silent drop of absent event dates) against the comparison
CARs per window (loud `KeyError` on an absent comparison date), one row
per window in caller order; a raised error discards all partial rows. -/
def two_sample_rows (returns : Series) (event_indices compare_events : List Date) :
    List ℕ → Except PyErr (List (ℕ × TestRow))
  | [] => .ok []
  | w :: ws =>
    match compare_car_samples returns w compare_events with
    | .error e => .error e
    | .ok cc =>
      match two_sample_rows returns event_indices compare_events ws with
      | .error e => .error e
      | .ok rest => .ok ((w, two_row (car_samples returns event_indices w) cc) :: rest)

/-- `two_sample_test` including the possibly-None `returns` argument:
with `None`, the first executed loop body dereferences `returns.index`
and raises `AttributeError` (event loop when event dates exist, else
comparison loop when comparison dates exist); with no windows, or no
dates at all, no body runs. -/
def two_sample_rows_opt (returns : Option Series)
    (event_indices compare_events : List Date) (windows : List ℕ) :
    Except PyErr (List (ℕ × TestRow)) :=
  match returns with
  | some r => two_sample_rows r event_indices compare_events windows
  | none =>
    if windows = [] then .ok []
    else if event_indices = [] then
      if compare_events = [] then .ok (windows.map (fun w => (w, missing_row)))
      else .error .attributeError
    else .error .attributeError

/-- `stock_returns.loc[dates]`: the rows AT the listed dates, in list
order, with `KeyError` on a date absent from the axis. -/
def loc_rows (stock_returns : Series) : List Date → Except PyErr (List (Date × ℚ))
  | [] => .ok []
  | d :: ds =>
    match stock_returns.find? (fun p => p.1 = d) with
    | none => .error .keyError
    | some p =>
      match loc_rows stock_returns ds with
      | .error e => .error e
      | .ok rest => .ok (p :: rest)

/-- The pool `random_sample` (stats.py 7–30) draws from: the full series
when `filtered_idx` is empty (`if not filtered_idx`), and otherwise
`stock_returns.loc[filtered_idx]` — the rows AT the listed dates. The
docstring calls `filtered_idx` the "date indices to ignore when we
sample". -/
def random_sample_pool (stock_returns : Series) (filtered_idx : List Date) :
    Except PyErr Series :=
  match filtered_idx with
  | [] => .ok stock_returns
  | _ => loc_rows stock_returns filtered_idx

/-- Modelled from the spec: the Resampler pool of §4.3, "the source series
restricted to dates not in the exclusion set (or the full series if the
exclusion set is empty)". Stated only to be compared with the pool the
source code actually uses. -/
def spec_resampler_pool (stock_returns : Series) (filtered_idx : List Date) :
    Series :=
  stock_returns.filter (fun p => !(filtered_idx.contains p.1))

/-- Parameter names in the definition of `random_sample` (stats.py 7–9). -/
def random_sample_params : List String := ["stock_returns", "n", "filtered_idx"]

/-- Keyword-argument names passed to `random_sample` at the call sites in
`EventStudy.random_single_test` (EventStudy.py 153–158) and
`EventStudy.event_two_sample_test` (EventStudy.py 215–220). -/
def random_sample_call_kwargs : List String := ["n", "filtered_idx", "replacement"]

/-- A Python call binds each keyword argument to a parameter of the same
name and raises `TypeError` when one has no match. -/
def kwargs_accepted : Bool :=
  random_sample_call_kwargs.all (fun k => random_sample_params.contains k)

/-- `EventStudy` (EventStudy.py 7–51): per-asset configuration plus the
residual state; `residuals` is `None` until `fit_residuals` runs. -/
structure EventStudy where
  ticker : String
  market_returns : Series
  car_windows : List ℕ
  residuals : Option Series
deriving Repr, DecidableEq

/-- `EventStudy.__init__` (EventStudy.py 25–51): `self.residuals = None`. -/
def EventStudy.init (ticker : String) (market_returns : Series)
    (car_windows : List ℕ) : EventStudy :=
  ⟨ticker, market_returns, car_windows, none⟩

/-- `EventStudy.fit_residuals` (EventStudy.py 53–81), abstracted over the
output of `rolling_residual` (an external statsmodels regression whose
numerics no claim here depends on): stores the residual series. -/
def EventStudy.fit_residuals (es : EventStudy) (residual_series : Series) :
    EventStudy :=
  ⟨es.ticker, es.market_returns, es.car_windows, some residual_series⟩

/-- `EventStudy.event_single_test` (EventStudy.py 83–109): delegates to
`single_sample_test` with the owned residuals (possibly `None`). -/
def EventStudy.event_single_test (es : EventStudy) (event_dates : List Date)
    (pop_mean : ℚ) : Except PyErr (List (ℕ × TestRow)) :=
  single_sample_rows es.residuals event_dates pop_mean es.car_windows

/-- One trial of `EventStudy.random_single_test` (EventStudy.py 152–166):
the call `random_sample(self.residuals, n=n, filtered_idx=filtered_dates,
replacement=replacement)` raises `TypeError` before the function body runs,
because `random_sample` has no `replacement` parameter; `dates` stands for
the index a successful draw would have returned. The trial's contribution
is the `t_stat` column of the single-sample test on the drawn dates. -/
def random_trial (residuals : Option Series) (car_windows : List ℕ)
    (dates : List Date) (pop_mean : ℚ) :
    Except PyErr (List (Option (ℚ × ℚ))) :=
  if kwargs_accepted then
    match single_sample_rows residuals dates pop_mean car_windows with
    | .error e => .error e
    | .ok results => .ok (results.map (fun r => r.2.t_stat))
  else .error .typeError

/-- The `for i in range(M)` loop of `random_single_test`: the per-trial
`t_stat` columns of the frame `random_results`, trial 0 first; an error in
any trial aborts the whole batch, discarding completed columns. `draw i`
is trial i's random index. -/
def random_trials (residuals : Option Series) (car_windows : List ℕ)
    (draw : ℕ → List Date) (pop_mean : ℚ) :
    ℕ → Except PyErr (List (List (Option (ℚ × ℚ))))
  | 0 => .ok []
  | M + 1 =>
    match random_trials residuals car_windows draw pop_mean M with
    | .error e => .error e
    | .ok cols =>
      match random_trial residuals car_windows (draw M) pop_mean with
      | .error e => .error e
      | .ok col => .ok (cols ++ [col])

/-- `EventStudy.random_single_test` (EventStudy.py 111–171), parametrized
by the random draw `draw` and returning the matrix of per-trial t-stat
columns: the source's return value — per-window mean and standard
deviation of the t statistic across the M trials — is a function of this
matrix. `n` and `filtered_dates` would parametrize the (never reached)
`random_sample` body. -/
def EventStudy.random_single_test (es : EventStudy) (draw : ℕ → List Date)
    (filtered_dates : List Date) (n M : ℕ) (pop_mean : ℚ) :
    Except PyErr (List (List (Option (ℚ × ℚ)))) :=
  random_trials es.residuals es.car_windows draw pop_mean M

/-- One trial of `EventStudy.event_two_sample_test` (EventStudy.py
214–225): the same `replacement=` keyword mismatch raises `TypeError`
before any sampling; the trial's contribution is the `t_stat` column of
the two-sample test against the drawn comparison dates. -/
def two_sample_trial (residuals : Option Series) (car_windows : List ℕ)
    (event_dates dates : List Date) :
    Except PyErr (List (Option (ℚ × ℚ))) :=
  if kwargs_accepted then
    match two_sample_rows_opt residuals event_dates dates car_windows with
    | .error e => .error e
    | .ok results => .ok (results.map (fun r => r.2.t_stat))
  else .error .typeError

/-- The `for i in range(M)` loop of `event_two_sample_test`. -/
def two_sample_trials (residuals : Option Series) (car_windows : List ℕ)
    (draw : ℕ → List Date) (event_dates : List Date) :
    ℕ → Except PyErr (List (List (Option (ℚ × ℚ))))
  | 0 => .ok []
  | M + 1 =>
    match two_sample_trials residuals car_windows draw event_dates M with
    | .error e => .error e
    | .ok cols =>
      match two_sample_trial residuals car_windows event_dates (draw M) with
      | .error e => .error e
      | .ok col => .ok (cols ++ [col])

/-- `EventStudy.event_two_sample_test` (EventStudy.py 173–230),
parametrized and truncated exactly as `random_single_test` above. -/
def EventStudy.event_two_sample_test (es : EventStudy) (draw : ℕ → List Date)
    (event_dates filtered_dates : List Date) (n M : ℕ) :
    Except PyErr (List (List (Option (ℚ × ℚ)))) :=
  two_sample_trials es.residuals es.car_windows draw event_dates M

/-- A three-row series reused by the concrete instantiations below:
dates 0, 1, 2 with residuals 1, 2, 3. -/
def exSeries : Series := [(0, 1), (1, 2), (2, 3)]

lemma indexOfDate_eq_none_of_not_contains {l : List Date} {d : Date}
    (h : l.contains d = false) : indexOfDate l d = none := by
  induction l with
  | nil => rfl
  | cons x xs ih =>
    simp only [List.contains_cons, Bool.or_eq_false_iff, beq_eq_false_iff_ne] at h
    simp only [indexOfDate, if_neg (Ne.symm h.1), ih h.2, Option.map_none']

lemma car_samples_filter (r : Series) (dates : List Date) (w : ℕ) :
    car_samples r (dates.filter (fun d => (seriesIndex r).contains d)) w
      = car_samples r dates w := by
  induction dates with
  | nil => rfl
  | cons d ds ih =>
    by_cases hc : (seriesIndex r).contains d
    · simp only [car_samples, List.filter_cons, hc, if_pos, List.filterMap_cons] at ih ⊢
      rw [ih]
    · have hnone : get_loc r d = none :=
        indexOfDate_eq_none_of_not_contains (Bool.eq_false_iff.mpr hc)
      simp only [car_samples, List.filter_cons, List.filterMap_cons, hnone,
        Bool.eq_false_iff.mpr hc, Option.map_none'] at ih ⊢
      exact ih

lemma lookup_map_rows (f : ℕ → TestRow) {w : ℕ} {windows : List ℕ}
    (hw : w ∈ windows) :
    List.lookup w (windows.map (fun x => (x, f x))) = some (f w) := by
  induction windows with
  | nil => cases hw
  | cons a ws ih =>
    by_cases h : w = a
    · subst h; simp [List.lookup]
    · have hmem : w ∈ ws := by
        cases hw with
        | head => exact absurd rfl h
        | tail _ hm => exact hm
      simpa [List.lookup, beq_eq_false_iff_ne.mpr h] using ih hmem

lemma single_sample_rows_some (r : Series) (dates : List Date) (μ : ℚ)
    (windows : List ℕ) :
    single_sample_rows (some r) dates μ windows
      = .ok (single_sample_test r dates windows μ) := by
  induction windows with
  | nil => rfl
  | cons w ws ih =>
    simp only [single_sample_rows, car_samples_opt, ih, single_sample_test,
      List.map_cons]

lemma compare_car_samples_absent {r : Series} {cmp : List Date} (w : ℕ)
    (h : ∃ d ∈ cmp, get_loc r d = none) :
    compare_car_samples r w cmp = .error .keyError := by
  induction cmp with
  | nil => obtain ⟨d, hd, _⟩ := h; cases hd
  | cons d ds ih =>
    cases hd : get_loc r d with
    | none => simp [compare_car_samples, hd]
    | some idx =>
      obtain ⟨x, hx, hxg⟩ := h
      have hxds : x ∈ ds := by
        cases hx with
        | head => rw [hd] at hxg; cases hxg
        | tail _ hm => exact hm
      simp [compare_car_samples, hd, ih ⟨x, hxds, hxg⟩]

lemma two_sample_rows_nil_cmp (r : Series) (ev : List Date) (windows : List ℕ) :
    two_sample_rows r ev [] windows
      = .ok (windows.map (fun w => (w, missing_row))) := by
  induction windows with
  | nil => rfl
  | cons w ws ih =>
    simp only [two_sample_rows, compare_car_samples, ih, two_row, if_pos,
      List.map_cons]

lemma single_sample_rows_none_nil (μ : ℚ) (windows : List ℕ) :
    single_sample_rows none [] μ windows
      = .ok (windows.map (fun w => (w, missing_row))) := by
  induction windows with
  | nil => rfl
  | cons w ws ih =>
    simp only [single_sample_rows, car_samples_opt, if_pos, ih, single_row,
      List.map_cons]

lemma single_sample_rows_none_error {dates : List Date} (μ : ℚ)
    {windows : List ℕ} (hd : dates ≠ []) (hw : windows ≠ []) :
    single_sample_rows none dates μ windows = .error .attributeError := by
  cases windows with
  | nil => exact absurd rfl hw
  | cons w ws => simp [single_sample_rows, car_samples_opt, hd]

lemma random_trials_step_typeerror (residuals : Option Series)
    (car_windows : List ℕ) (draw : ℕ → List Date) (μ : ℚ) (M : ℕ) :
    random_trials residuals car_windows draw μ (M + 1) = .error .typeError := by
  induction M with
  | zero =>
    have hk : kwargs_accepted = false := by decide
    simp [random_trials, random_trial, hk]
  | succ m ih => rw [random_trials, ih]

lemma two_sample_trials_step_typeerror (residuals : Option Series)
    (car_windows : List ℕ) (draw : ℕ → List Date) (ev : List Date) (M : ℕ) :
    two_sample_trials residuals car_windows draw ev (M + 1) = .error .typeError := by
  induction M with
  | zero =>
    have hk : kwargs_accepted = false := by decide
    simp [two_sample_trials, two_sample_trial, hk]
  | succ m ih => rw [two_sample_trials, ih]

lemma single_row_singleton (c μ : ℚ) :
    single_row [c] μ = ⟨some c, none, some 1, none, none⟩ := by
  simp [single_row, sample_mean, sample_var, t_det1, p_det1]

/-- Claim C1 (code bug, evaluated at the failing input): for the series
over dates 0, 1, 2 with exclusion set {0}, the pool `random_sample`
actually draws from is exactly the row at the excluded date 0, while the
pool described by the spec (and by the function's own docstring) is the
two rows at the non-excluded dates; only the empty exclusion set yields
the full series. -/
theorem random_sample_pool_is_excluded_dates :
    random_sample_pool exSeries [0] = .ok [(0, 1)]
    ∧ spec_resampler_pool exSeries [0] = [(1, 2), (2, 3)]
    ∧ random_sample_pool exSeries [] = .ok exSeries := by
  refine ⟨?_, ?_, ?_⟩ <;> rfl

/-- Claim C2 (code bug): for every orchestrator, draw, candidate pool,
sample size and population mean, and every positive trial count M, both
Monte Carlo operations raise `TypeError` — the call sites pass a
`replacement` keyword that `random_sample` does not accept — so neither
ever returns the per-window mean and standard deviation of the
t-statistic. -/
theorem monte_carlo_always_typeerror (es : EventStudy) (draw : ℕ → List Date)
    (filtered_dates event_dates : List Date) (n M : ℕ) (pop_mean : ℚ) :
    es.random_single_test draw filtered_dates n (M + 1) pop_mean
        = .error .typeError
    ∧ es.event_two_sample_test draw event_dates filtered_dates n (M + 1)
        = .error .typeError :=
  ⟨random_trials_step_typeerror es.residuals es.car_windows draw pop_mean M,
    two_sample_trials_step_typeerror es.residuals es.car_windows draw event_dates M⟩

/-- Claim C3 counterexample: on the three-element series, the CAR at
anchor 2 with window 2 (anchor + window = 4 > 2 = N − 1) is not a defined
failure but the truncated sum 3 of the single available element, and the
single-sample test keeps it: the window-2 row reports N = 1 with that
truncated CAR as its mean, instead of dropping the sample. -/
theorem car_overrun_kept_counterexample :
    compute_car exSeries 2 2 = 3
    ∧ single_sample_test exSeries [2] [2] 0
        = [(2, ⟨some 3, none, some 1, none, none⟩)] := by
  have hc : compute_car exSeries 2 2 = 3 := by
    simp [compute_car, exSeries]
  have hloc : get_loc exSeries 2 = some 2 := by decide
  have hcs : car_samples exSeries [2] 2 = [3] := by
    simp [car_samples, hloc, hc]
  exact ⟨hc, by simp [single_sample_test, hcs, single_row_singleton]⟩

/-- Claim C3 as amended: for a residual series of length N, anchor i < N
and window w with i + w > N − 1, the CAR sample at (i, w) is the truncated
sum over the N − i < w + 1 remaining elements, and it is kept — not
dropped — by the CAR-collection loop of the hypothesis tests. -/
theorem car_overrun_truncated_sum (r : Series) (i w : ℕ)
    (hi : i < r.length) (hw : r.length ≤ i + w) :
    compute_car r i w = ((r.drop i).map Prod.snd).sum
    ∧ (r.drop i).length = r.length - i
    ∧ r.length - i < w + 1
    ∧ ∀ d, get_loc r d = some i → car_samples r [d] w = [compute_car r i w] := by
  have hlen : (r.drop i).length = r.length - i := List.length_drop i r
  refine ⟨?_, hlen, by omega, ?_⟩
  · unfold compute_car
    rw [List.take_of_length_le (by omega)]
  · intro d hd
    simp [car_samples, hd]

/-- Witness for the amended Claim C3 at the concrete overrun input. -/
theorem car_overrun_truncated_sum_witness :
    compute_car exSeries 2 2 = ((exSeries.drop 2).map Prod.snd).sum
    ∧ car_samples exSeries [2] 2 = [compute_car exSeries 2 2] := by
  have h := car_overrun_truncated_sum exSeries 2 2 (by decide) (by decide)
  exact ⟨h.1, h.2.2.2 2 (by decide)⟩

/-- Claim C4 counterexample: an orchestrator on which no fit has run
(residuals absent) completes `single_test` on an empty event-date list
without any error, returning the all-missing table over the default
window list — it does not fail with a precondition error. -/
theorem unfitted_single_test_completes :
    (EventStudy.init "QBTS" [] [1, 5, 10, 20, 30]).event_single_test [] 0
      = .ok [(1, missing_row), (5, missing_row), (10, missing_row),
          (20, missing_row), (30, missing_row)] := rfl

/-- Claim C4 as amended: no test operation checks the Fitted state; in
the Unfitted state `single_test` fails only incidentally, with an
attribute error raised on dereferencing the absent residual series, and
only when both the event-date list and the window list are non-empty;
with an empty event-date list it completes and returns the all-missing
table. -/
theorem unfitted_single_test_behavior (es : EventStudy)
    (h : es.residuals = none) (dates : List Date) (μ : ℚ) :
    (dates = [] → es.event_single_test dates μ
        = .ok (es.car_windows.map (fun w => (w, missing_row))))
    ∧ (dates ≠ [] → es.car_windows ≠ [] →
        es.event_single_test dates μ = .error .attributeError) := by
  unfold EventStudy.event_single_test
  rw [h]
  constructor
  · intro hd; subst hd; exact single_sample_rows_none_nil μ es.car_windows
  · intro hd hw; exact single_sample_rows_none_error μ hd hw

/-- Witness for the amended Claim C4: both branches at a concrete
unfitted orchestrator. -/
theorem unfitted_single_test_behavior_witness :
    (EventStudy.init "QBTS" [] [1]).event_single_test [] 0
        = .ok [(1, missing_row)]
    ∧ (EventStudy.init "QBTS" [] [1]).event_single_test [55] 0
        = .error .attributeError := by
  have h1 := unfitted_single_test_behavior (EventStudy.init "QBTS" [] [1]) rfl [] 0
  have h2 := unfitted_single_test_behavior (EventStudy.init "QBTS" [] [1]) rfl [55] 0
  exact ⟨h1.1 rfl, h2.2 (by decide) (by decide)⟩

/-- Claim C5: when, for some window in the list, zero CAR samples survive
the filtering, the single-sample test returns (no exception) a table with
the all-missing row at that window while every window of the list still
gets its usual row; and the two-sample test on an empty comparison set
(the only way its filtered comparison sample can be empty) returns the
all-missing row for every window without raising. -/
theorem degenerate_window_missing_row (r : Series) (dates ev : List Date)
    (windows : List ℕ) (μ : ℚ) (w : ℕ) (hw : w ∈ windows)
    (hz : car_samples r dates w = []) :
    single_sample_rows (some r) dates μ windows
        = .ok (single_sample_test r dates windows μ)
    ∧ List.lookup w (single_sample_test r dates windows μ) = some missing_row
    ∧ (∀ w' ∈ windows, List.lookup w' (single_sample_test r dates windows μ)
        = some (single_row (car_samples r dates w') μ))
    ∧ two_sample_rows r ev [] windows
        = .ok (windows.map (fun x => (x, missing_row))) := by
  have hall : ∀ w' ∈ windows, List.lookup w' (single_sample_test r dates windows μ)
      = some (single_row (car_samples r dates w') μ) := by
    intro w' hw'
    exact lookup_map_rows (fun x => single_row (car_samples r dates x) μ) hw'
  refine ⟨single_sample_rows_some r dates μ windows, ?_, hall,
    two_sample_rows_nil_cmp r ev windows⟩
  have h := hall w hw
  rw [hz] at h
  simpa [single_row] using h

/-- Witness for Claim C5 at a date list whose only date is absent from
the axis and a singleton window list. -/
theorem degenerate_window_missing_row_witness :
    single_sample_rows (some exSeries) [99] 0 [1]
        = .ok (single_sample_test exSeries [99] [1] 0)
    ∧ List.lookup 1 (single_sample_test exSeries [99] [1] 0) = some missing_row
    ∧ two_sample_rows exSeries [] [] [1] = .ok [(1, missing_row)] := by
  have h := degenerate_window_missing_row exSeries [99] [] [1] 0 1 (by decide) (by decide)
  exact ⟨h.1, h.2.1, h.2.2.2⟩

/-- Claim C6 counterexample: with an empty window list, the two-sample
test returns successfully even though the comparison set holds the date
99, which is absent from the residual axis — no error is raised. -/
theorem two_sample_absent_date_no_raise_counterexample :
    get_loc exSeries 99 = none
    ∧ two_sample_rows exSeries [] [99] [] = .ok [] := ⟨rfl, rfl⟩

/-- Claim C6 as amended: for every NON-EMPTY window list, a comparison
set containing a date absent from the residual axis makes the two-sample
test fail loudly with a `KeyError`, unlike the silent drop applied to
event dates. -/
theorem two_sample_absent_compare_date_raises (r : Series) (ev cmp : List Date)
    (windows : List ℕ) (hwin : windows ≠ [])
    (habs : ∃ d ∈ cmp, get_loc r d = none) :
    two_sample_rows r ev cmp windows = .error .keyError := by
  cases windows with
  | nil => exact absurd rfl hwin
  | cons w ws => simp [two_sample_rows, compare_car_samples_absent w habs]

/-- Witness for the amended Claim C6 at the absent comparison date 99. -/
theorem two_sample_absent_compare_date_raises_witness :
    two_sample_rows exSeries [] [99] [1] = .error .keyError :=
  two_sample_absent_compare_date_raises exSeries [] [99] [1] (by decide)
    ⟨99, by decide, rfl⟩

/-- Claim C8: when the window fits (anchor + window strictly below the
series length), `compute_car` returns exactly the sum of the window + 1
consecutive elements at offsets anchor … anchor + window, and the summed
slice has exactly window + 1 elements. (The function is pure: it only
folds over a slice of its argument.) -/
theorem compute_car_full_window (r : Series) (i w : ℕ) (h : i + w < r.length) :
    compute_car r i w
      = ((List.range (w + 1)).map (fun k => (r.getD (i + k) (0, 0)).2)).sum
    ∧ ((r.drop i).take (w + 1)).length = w + 1 := by
  have hlen : ((r.drop i).take (w + 1)).length = w + 1 := by
    simp only [List.length_take, List.length_drop]
    omega
  have hslice : (r.drop i).take (w + 1)
      = (List.range (w + 1)).map (fun k => r.getD (i + k) ((0 : Date), (0 : ℚ))) := by
    apply List.ext_getElem
    · rw [hlen, List.length_map, List.length_range]
    · intro n h1 h2
      rw [List.getElem_take, List.getElem_drop, List.getElem_map, List.getElem_range,
        List.getD_eq_getElem]
  constructor
  · unfold compute_car
    rw [hslice, List.map_map]
    rfl
  · exact hlen

/-- Witness for Claim C8 at anchor 0, window 1 on the three-row series. -/
theorem compute_car_full_window_witness :
    compute_car exSeries 0 1
      = ((List.range 2).map (fun k => (exSeries.getD (0 + k) (0, 0)).2)).sum
    ∧ ((exSeries.drop 0).take 2).length = 2 :=
  compute_car_full_window exSeries 0 1 (by decide)

/-- Claim C9: the single-sample test gives identical per-window results
whether the event-date list is passed as is or with the dates absent from
the residual axis removed beforehand — absent dates are dropped, never
treated as zero. -/
theorem single_test_date_drop_idempotent (r : Series) (dates : List Date)
    (windows : List ℕ) (μ : ℚ) :
    single_sample_test r dates windows μ
      = single_sample_test r (dates.filter (fun d => (seriesIndex r).contains d))
          windows μ := by
  simp only [single_sample_test, car_samples_filter]

/-- Claim C10: when exactly one CAR sample survives for a window of the
list, the single-sample test does not raise, and that window's row is
partially populated: Mean holds the sample and N = 1, while Std, t_stat
and p_value are missing — a shape distinct from the all-missing row. -/
theorem single_survivor_partial_row (r : Series) (dates : List Date)
    (windows : List ℕ) (μ : ℚ) (w : ℕ) (c : ℚ) (hw : w ∈ windows)
    (h1 : car_samples r dates w = [c]) :
    single_sample_rows (some r) dates μ windows
        = .ok (single_sample_test r dates windows μ)
    ∧ List.lookup w (single_sample_test r dates windows μ)
        = some ⟨some c, none, some 1, none, none⟩
    ∧ (⟨some c, none, some 1, none, none⟩ : TestRow) ≠ missing_row := by
  refine ⟨single_sample_rows_some r dates μ windows, ?_, by simp [missing_row]⟩
  have h : List.lookup w (single_sample_test r dates windows μ)
      = some (single_row (car_samples r dates w) μ) :=
    lookup_map_rows (fun x => single_row (car_samples r dates x) μ) hw
  rw [h1, single_row_singleton] at h
  exact h

/-- Witness for Claim C10: event date 2 with window 2 on the three-row
series leaves the single truncated CAR sample 3. -/
theorem single_survivor_partial_row_witness :
    single_sample_rows (some exSeries) [2] 0 [2]
        = .ok (single_sample_test exSeries [2] [2] 0)
    ∧ List.lookup 2 (single_sample_test exSeries [2] [2] 0)
        = some ⟨some 3, none, some 1, none, none⟩
    ∧ (⟨some 3, none, some 1, none, none⟩ : TestRow) ≠ missing_row := by
  have hc : compute_car exSeries 2 2 = 3 := by simp [compute_car, exSeries]
  have hloc : get_loc exSeries 2 = some 2 := by decide
  have hcs : car_samples exSeries [2] 2 = [3] := by simp [car_samples, hloc, hc]
  exact single_survivor_partial_row exSeries [2] [2] 0 2 3 (by decide) hcs
